import Mathlib

/-!
Verification of the TruthLens claim-triage pipeline (src/app.py).

The Python source is shallowly embedded over `List Char` / `String`.
Python floats are modelled as exact rationals (`ℚ`), Python ints as `ℤ`/`ℕ`.
Unicode-aware character classes are modelled with the ASCII classes of
`Char`, treating every non-ASCII code point as a word character (the
inputs the spec talks about only exercise ASCII and Devanagari, and
Devanagari code points are word characters for Python's regex `\w` too).
Fallible collaborators (language detection, translation) are modelled as
`Option`-valued parameters: `none` stands for "raises or unavailable".
-/

/-! ## Basic character and list-of-characters utilities -/

/-- Python `str.lower`, restricted to the ASCII case table (see the header
comment): this is `Char.toLower`. -/
def lowerChar (c : Char) : Char := Char.toLower c

/-- `startsWithL p l` is true when `p` is a prefix of `l`. -/
def startsWithL : List Char → List Char → Bool
  | [], _ => true
  | _ :: _, [] => false
  | p :: ps, c :: cs => p == c && startsWithL ps cs

/-- Python `pat in s` (substring test), for a pattern given as the first
argument. -/
def containsL (pat : List Char) : List Char → Bool
  | [] => pat.isEmpty
  | c :: cs => startsWithL pat (c :: cs) || containsL pat cs

/-- Python `s.count(pat)`: number of non-overlapping occurrences, scanning
left to right.  `fuel` bounds the recursion; it is instantiated with a value
large enough to never run out. -/
def countLAux (pat : List Char) : Nat → List Char → Nat
  | 0, _ => 0
  | _ + 1, [] => 0
  | fuel + 1, c :: cs =>
    if startsWithL pat (c :: cs) then 1 + countLAux pat fuel ((c :: cs).drop pat.length)
    else countLAux pat fuel cs

def countL (pat l : List Char) : Nat := countLAux pat (l.length + 1) l

/-- Python `pat in s` on `String`s. -/
def containsSub (pat s : String) : Bool := containsL pat.data s.data

/-- Python `s.count(pat)` on `String`s. -/
def countSub (pat s : String) : Nat := countL pat.data s.data

/-- Python `s.lower()` on `String`s. -/
def lowerStr (s : String) : String := ⟨s.data.map lowerChar⟩

/-- Python `s.split()`: split on whitespace runs, dropping empty pieces.
`cur` accumulates the current word reversed. -/
def splitWsAux : List Char → List Char → List (List Char)
  | [], cur => if cur.isEmpty then [] else [cur.reverse]
  | c :: cs, cur =>
    if c.isWhitespace then
      if cur.isEmpty then splitWsAux cs [] else cur.reverse :: splitWsAux cs []
    else splitWsAux cs (c :: cur)

def splitWs (l : List Char) : List (List Char) := splitWsAux l []

/-- Join words with single spaces. `joinSp (splitWs l)` models
`re.sub(r"\s+", " ", l).strip()`: every whitespace run is collapsed to one
space and the ends are stripped. -/
def joinSp : List (List Char) → List Char
  | [] => []
  | [w] => w
  | w :: x :: ws => w ++ ' ' :: joinSp (x :: ws)

def collapseWs (l : List Char) : List Char := joinSp (splitWs l)

/-! ## Text Normalizer: `clean_text` -/

/-- Python regex `\w` (Unicode word character), modelled as in the header
comment: ASCII alphanumeric, underscore, or any non-ASCII code point. -/
def isWordChar (c : Char) : Bool := c.isAlphanum || c == '_' || 128 ≤ c.toNat

/-- One attempt of the regex `https?://\S+|www\.\S+` anchored at the head of
`l`: returns the matched length, `none` when there is no match here.  The
`\S+` is greedy and must be nonempty. -/
def urlStartLen (l : List Char) : Option Nat :=
  if startsWithL "https://".data l then
    let run := ((l.drop 8).takeWhile (fun c => !c.isWhitespace)).length
    if run = 0 then none else some (8 + run)
  else if startsWithL "http://".data l then
    let run := ((l.drop 7).takeWhile (fun c => !c.isWhitespace)).length
    if run = 0 then none else some (7 + run)
  else if startsWithL "www.".data l then
    let run := ((l.drop 4).takeWhile (fun c => !c.isWhitespace)).length
    if run = 0 then none else some (4 + run)
  else none

/-- `re.sub(r"https?://\S+|www\.\S+", "", text)`: delete every
non-overlapping leftmost match. -/
def removeURLsAux : Nat → List Char → List Char
  | 0, l => l
  | _ + 1, [] => []
  | fuel + 1, c :: cs =>
    match urlStartLen (c :: cs) with
    | some n => removeURLsAux fuel ((c :: cs).drop n)
    | none => c :: removeURLsAux fuel cs

def removeURLs (l : List Char) : List Char := removeURLsAux l.length l

/-- The body of `clean_text` on a list of characters: lowercase, strip URLs,
drop non-word non-space characters, turn underscores into spaces, collapse
whitespace and trim. -/
def cleanList (l : List Char) : List Char :=
  collapseWs
    (((removeURLs (l.map lowerChar)).filter
        (fun c => isWordChar c || c.isWhitespace)).map
      (fun c => if c = '_' then ' ' else c))

/-- `clean_text` from src/app.py. -/
def clean_text (input_text : String) : String :=
  if input_text = "" then "" else ⟨cleanList input_text.data⟩

/-! ## Token Guard: the guarding and restoration phases of
`preprocessing_and_translation` -/

/-- The `critical_tokens` list from `preprocessing_and_translation`, in
source order. -/
def critical_tokens : List String :=
  ["indefinitely", "closed", "government", "lockdown", "schools",
   "withdraw", "withdraw money", "urgent", "urgently", "emergency"]

/-- Stable insertion by descending length: an element is placed before the
first element that is not longer, so earlier elements precede equal-length
later ones, as with Python's stable `sorted`. -/
def insertLenDesc (x : String) : List String → List String
  | [] => [x]
  | y :: ys => if y.length ≤ x.length then x :: y :: ys else y :: insertLenDesc x ys

/-- Python `sorted(tokens, key=len, reverse=True)` (stable). -/
def sortLenDesc (l : List String) : List String := l.foldr insertLenDesc []

/-- Maximal digit runs of a text, in order; `re.findall(r"\d{3,}", s)`
keeps exactly the maximal runs of length at least 3. -/
def digitRunsAux : Nat → List Char → List (List Char)
  | 0, _ => []
  | _ + 1, [] => []
  | fuel + 1, c :: cs =>
    if c.isDigit then
      ((c :: cs).takeWhile Char.isDigit) :: digitRunsAux fuel ((c :: cs).dropWhile Char.isDigit)
    else digitRunsAux fuel cs

def digitRuns (l : List Char) : List (List Char) :=
  (digitRunsAux l.length l).filter (fun r => 3 ≤ r.length)

/-- Python `s.replace(pat, rep, 1)`: replace the first occurrence only. -/
def replaceFirstL (pat rep : List Char) : Nat → List Char → List Char
  | _, [] => []
  | 0, l => l
  | fuel + 1, c :: cs =>
    if startsWithL pat (c :: cs) then rep ++ (c :: cs).drop pat.length
    else c :: replaceFirstL pat rep fuel cs

/-- Python `s.replace(pat, rep)`: replace all non-overlapping occurrences,
left to right; the replacement text is not rescanned. -/
def replaceAllL (pat rep : List Char) : Nat → List Char → List Char
  | _, [] => []
  | 0, l => l
  | fuel + 1, c :: cs =>
    if startsWithL pat (c :: cs) then rep ++ replaceAllL pat rep fuel ((c :: cs).drop pat.length)
    else c :: replaceAllL pat rep fuel cs

/-- Case-insensitive prefix test (both sides lowercased), for
`re.compile(re.escape(tok), flags=re.IGNORECASE)`. -/
def startsWithCI : List Char → List Char → Bool
  | [], _ => true
  | _ :: _, [] => false
  | p :: ps, c :: cs => (lowerChar p == lowerChar c) && startsWithCI ps cs

/-- `list(prog.finditer(tmp))` for a literal case-insensitive pattern:
the (start, end) spans of the non-overlapping matches, scanning left to
right and resuming after each match. -/
def findCIAux (pat : List Char) : Nat → Nat → List Char → List (Nat × Nat)
  | 0, _, _ => []
  | _ + 1, _, [] => []
  | fuel + 1, pos, c :: cs =>
    if startsWithCI pat (c :: cs) then
      (pos, pos + pat.length) :: findCIAux pat fuel (pos + pat.length) ((c :: cs).drop pat.length)
    else findCIAux pat fuel (pos + 1) cs

def findCI (pat l : List Char) : List (Nat × Nat) := findCIAux pat (l.length + 1) 0 l

/-- Python slice `tmp[s:e]`. -/
def subL (tmp : List Char) (s e : Nat) : List Char := (tmp.drop s).take (e - s)

/-- `tmp[:s] + key + tmp[e:]`. -/
def spliceKey (tmp : List Char) (s e : Nat) (key : List Char) : List Char :=
  tmp.take s ++ key ++ tmp.drop e

/-- The numeric-guard loop of `preprocessing_and_translation`: for each
found digit run, in order, record `__NUM<i>__ -> run` and replace the first
occurrence of the run in the working text. -/
def numGuardLoop :
    List (List Char) → Nat → List Char → List (List Char × List Char) →
      List Char × List (List Char × List Char)
  | [], _, tmp, mp => (tmp, mp)
  | n :: rest, i, tmp, mp =>
    let key := "__NUM".data ++ (Nat.repr i).data ++ "__".data
    numGuardLoop rest (i + 1) (replaceFirstL n key tmp.length tmp) (mp ++ [(key, n)])

/-- The inner splice loop over one token's matches: the match list was
computed once, before any splice, exactly as in the source (`m.start()` and
`m.end()` refer to the pre-splice text — the offsets go stale as the text
is rewritten). -/
def tokSplice (i : Nat) :
    List (Nat × Nat) → Nat → List Char → List (List Char × List Char) →
      List Char × List (List Char × List Char)
  | [], _, tmp, mp => (tmp, mp)
  | (s, e) :: ms, j, tmp, mp =>
    let key := "__TK".data ++ (Nat.repr i).data ++ ['_'] ++ (Nat.repr j).data ++ "__".data
    tokSplice i ms (j + 1) (spliceKey tmp s e key) (mp ++ [(key, subL tmp s e)])

/-- The critical-token guard loop: tokens scanned longest first. -/
def tokGuardLoop :
    List String → Nat → List Char → List (List Char × List Char) →
      List Char × List (List Char × List Char)
  | [], _, tmp, mp => (tmp, mp)
  | tok :: rest, i, tmp, mp =>
    let r := tokSplice i (findCI tok.data tmp) 0 tmp mp
    tokGuardLoop rest (i + 1) r.1 r.2

/-- The guarding phase of `preprocessing_and_translation`: numeric runs
first, then critical tokens, longest first. -/
def guardText (raw : List Char) : List Char × List (List Char × List Char) :=
  let r := numGuardLoop (digitRuns raw) 0 raw []
  tokGuardLoop (sortLenDesc critical_tokens) 0 r.1 r.2

/-- The restoration phase: `for key, val in placeholder_map.items():
translated_text = translated_text.replace(key, val)` — the map is iterated
in insertion order. -/
def restoreText (t : List Char) (mp : List (List Char × List Char)) : List Char :=
  mp.foldl (fun acc kv => replaceAllL kv.1 kv.2 acc.length acc) t

/-- Guarding followed immediately by restoration, i.e. the round trip of
`preprocessing_and_translation` when the intervening translation step
returns the guarded text unchanged. -/
def guard_unguard (raw : String) : String :=
  ⟨restoreText (guardText raw.data).1 (guardText raw.data).2⟩

/-! ## Language Router: `process_language` -/

/-- The two fallible collaborators of `process_language`: `detect` models
`langdetect.detect` (`none` = raises), `translate` models the module-level
`googletrans` translator handle (`none` = handle unavailable; a `none`
result = the call raised).  Its arguments are (text, src, dest). -/
structure Env where
  detect : String → Option String
  translate : Option (String → String → String → Option String)

/-- `re.search(r"[ऀ-ॿ]", text)`: some character lies in the
Devanagari block. -/
def hasDevanagari (s : String) : Bool :=
  s.data.any (fun c => 0x900 ≤ c.toNat && c.toNat ≤ 0x97F)

/-- The Marathi clue words of `process_language`. -/
def marathi_clues : List String :=
  ["आहे", "नाही", "लोकना", "म्हणजे", "मला", "तुम्हाला"]

/-- The detection phase of `process_language`: the language code
"determined so far" before translation is attempted. -/
def detectedLangOf (env : Env) (text : String) : String :=
  if text ≠ "" ∧ hasDevanagari text then
    if marathi_clues.any (fun clue => containsSub clue (lowerStr text)) then "mr" else "hi"
  else
    match env.detect text with
    | some lang => lang
    | none => "unknown"

/-- `process_language` from src/app.py: detect, then translate only for a
known non-English language, falling back to the original text whenever the
translator is unavailable or raises. -/
def process_language (env : Env) (text : String) : String × String :=
  let detected := detectedLangOf env text
  let analysis :=
    if detected ≠ "" ∧ lowerStr detected ≠ "en" ∧ detected ≠ "unknown" then
      match env.translate with
      | some tr =>
        match tr text detected "en" with
        | some out => out
        | none => text
      | none => text
    else text
  (analysis, detected)

/-! ## Heuristic Scorers -/

/-- The default `suspicious_terms` of `MisinformationDetector.__init__`
(the Python constructor stores them as a set; the list is duplicate-free,
so summing substring counts over the list equals summing over the set). -/
def default_suspicious_terms : List String :=
  ["false", "hoax", "conspiracy", "hidden", "coverup", "fake", "exposed",
   "lying", "withdrawn", "bank", "account", "whatsapp", "scam", "modi",
   "important", "election", "protest", "results", "tomorrow", "immediately",
   "fraud", "vote", "scandal", "corrupt", "who", "cure", "virus", "pandemic",
   "confirmed", "officially", "health"]

structure MisinformationDetector where
  suspicious_terms : List String

/-- `MisinformationDetector()` with the default term list. -/
def default_detector : MisinformationDetector := ⟨default_suspicious_terms⟩

/-- `sensational_markers` local to `MisinformationDetector.score`. -/
def sensational_markers : List String :=
  ["urgent", "alert", "shocking", "you won\x27t believe", "just confirmed",
   "has just confirmed", "breaking", "important news", "important"]

/-- `financial_markers` local to `MisinformationDetector.score`. -/
def financial_markers : List String :=
  ["withdrawn", "bank", "account", "5000", "rupees", "whatsapp", "transfer"]

/-- The suspicious-term substring count of `MisinformationDetector.score`:
`count += lower.count(term)` for every term present. -/
def misinfoCount (terms : List String) (lower : String) : Nat :=
  terms.foldl (fun acc term => acc + (if containsSub term lower then countSub term lower else 0)) 0

/-- `max(1, len(text.split()))`. -/
def tokenCount (text : String) : Nat := max 1 (splitWs text.data).length

/-- The `boost` computed inside `MisinformationDetector.score`. -/
def misinfoBoost (lower : String) : ℚ :=
  (if sensational_markers.any (fun m => containsSub m lower) then 45/100 else 0)
  + (if financial_markers.any (fun m => containsSub m lower) then 35/100 else 0)
  + (if (containsSub "who" lower || containsSub "government" lower || containsSub "modi" lower)
        && sensational_markers.any (fun m => containsSub m lower) then 2/10 else 0)

/-- `MisinformationDetector.score` from src/app.py. -/
def MisinformationDetector.score (md : MisinformationDetector) (text : String) : ℚ :=
  if text = "" then 0
  else
    max 0 (min 1
      ((misinfoCount md.suspicious_terms (lowerStr text) : ℚ) / (tokenCount text : ℚ)
        + misinfoBoost (lowerStr text)))

/-- `sensational_terms` local to `detect_sensationalism`. -/
def sensational_terms : List String :=
  ["shocking", "urgent", "breaking", "unbelievable", "horrific", "shocker",
   "alert", "exclusive", "must read", "you won\x27t believe", "hidden",
   "hiding", "important", "important news", "withdrawn", "bank", "whatsapp",
   "modi", "protest", "immediately", "fake news alert", "crisis", "emergency"]

/-- The per-term presence count of `detect_sensationalism` (each term
contributes at most 1). -/
def sensCount (text_lower : String) : Nat :=
  sensational_terms.foldl (fun acc term => acc + (if containsSub term text_lower then 1 else 0)) 0

/-- `detect_sensationalism` from src/app.py. -/
def detect_sensationalism (text : String) : ℚ :=
  if text = "" then 0
  else min 1 ((sensCount (lowerStr text) : ℚ) / (sensational_terms.length : ℚ))

/-! ## Preliminary predictions and the Sensitivity Booster -/

/-- `generate_preliminary_prediction` from src/app.py (the plain
0.6 / 0.3 policy). -/
def generate_preliminary_prediction (misinfo_score sensationalism_score : ℚ) : String :=
  if misinfo_score > 3/5 ∧ sensationalism_score > 3/10 then "Fake"
  else if misinfo_score < 3/10 ∧ sensationalism_score < 3/10 then "Real"
  else "Unclear"

/-- The preliminary-prediction rule inlined at the end of `analyze_text`
(the boosted 0.8 / 0.2 policy). -/
def boosted_preliminary (misinfo_score sensationalism_score : ℚ) : String :=
  if misinfo_score > 4/5 ∨ sensationalism_score > 4/5 then "Fake"
  else if misinfo_score < 1/5 ∧ sensationalism_score < 1/5 then "Real"
  else "Unclear"

/-- `crisis_keywords` from `analyze_text`. -/
def crisis_keywords : List String :=
  ["schools closed", "lockdown", "government mandate", "withdraw money",
   "urgently", "emergency", "closed indefinitely", "who", "pandemic",
   "virus cure", "virus", "health", "election results fake",
   "protest immediately", "voting fraud", "who cure", "pandemic virus"]

/-- `any(keyword in lower for keyword in crisis_keywords)`. -/
def hasCrisisKeyword (processed_text : String) : Bool :=
  crisis_keywords.any (fun keyword => containsSub keyword (lowerStr processed_text))

/-- `analyze_text` from src/app.py: raw heuristic scores, the
crisis-keyword sensitivity boost, and the boosted preliminary verdict. -/
def analyze_text (processed_text : String) : ℚ × ℚ × String :=
  let misinfo₀ := default_detector.score processed_text
  let sens₀ := detect_sensationalism processed_text
  let pair :=
    if hasCrisisKeyword processed_text then
      ((if misinfo₀ < 7/10 then min 1 (misinfo₀ + 5/10) else misinfo₀),
       (if sens₀ < 2/10 then min 1 (sens₀ + 2/10) else sens₀))
    else (misinfo₀, sens₀)
  (pair.1, pair.2, boosted_preliminary pair.1 pair.2)

/-! ## Fact-Check Simulator -/

structure FactCheckResult where
  verdict : String
  url : String
  title : String
deriving DecidableEq

/-- The four fixed mocked results of `query_google_fact_check`, in rule
order. -/
def fc_false_generic : FactCheckResult :=
  ⟨"False", "https://factcheck.google.com/claim-false",
   "Google Fact Check: Claim found to be false"⟩

def fc_who_health : FactCheckResult :=
  ⟨"False", "https://www.who.int/news/factcheck-cure-hoax",
   "WHO Fact-check: No evidence for specific virus cure (Health Hoax)"⟩

def fc_pib_gov : FactCheckResult :=
  ⟨"False", "https://pib.gov.in/factcheck-govt-scheme-hoax",
   "PIB Fact Check: Government has not announced this scheme."⟩

def fc_vaccine_mixed : FactCheckResult :=
  ⟨"Mixed", "https://example.com/factcheck-vaccine",
   "Fact-check: Mixed evidence on vaccine claim"⟩

/-- `query_google_fact_check` from src/app.py: a deterministic rule table,
each rule independently appending at most one result, in fixed order. -/
def query_google_fact_check (claim_text : String) : List FactCheckResult :=
  if claim_text = "" then []
  else
    let lower := lowerStr claim_text
    (if ["fake", "hoax", "conspiracy", "coverup", "lying", "exposed"].any
          (fun k => containsSub k lower) then [fc_false_generic] else [])
    ++ (if containsSub "who" lower
          && ["hiding", "hidden", "cure", "virus", "pandemic", "health", "confirmed"].any
               (fun k => containsSub k lower) then [fc_who_health] else [])
    ++ (if ["government", "modi", "finance", "subsidy", "bank account", "pension"].any
          (fun k => containsSub k lower) then [fc_pib_gov] else [])
    ++ (if ["vaccine", "vaccination"].any (fun k => containsSub k lower)
          then [fc_vaccine_mixed] else [])

/-! ## Confidence Fuser -/

/-- Python 3 `round` on a float modelled as an exact rational:
round half to even. -/
def pyRound (q : ℚ) : ℤ :=
  let f := ⌊q⌋
  if q - f < 1/2 then f
  else if (1 : ℚ)/2 < q - f then f + 1
  else if f % 2 = 0 then f else f + 1

/-- `[str(r.get("verdict", "")).lower() for r in api_results]`. -/
def verdictsLower (api_results : List FactCheckResult) : List String :=
  api_results.map (fun r => lowerStr r.verdict)

def has_false (api_results : List FactCheckResult) : Bool :=
  (verdictsLower api_results).any (fun v => v == "false")

def has_true (api_results : List FactCheckResult) : Bool :=
  (verdictsLower api_results).any (fun v => v == "true")

def has_mixed (api_results : List FactCheckResult) : Bool :=
  (verdictsLower api_results).any (fun v => v == "mixed")

/-- The `>=66 Fake / <=33 Real / else Unclear` mapping used in
`calculate_confidence_score`. -/
def fuseVerdict (final_score : ℤ) : String :=
  if final_score ≥ 66 then "Fake" else if final_score ≤ 33 then "Real" else "Unclear"

/-- `calculate_confidence_score` from src/app.py.  Floats are exact
rationals; `1.0 - 0.70` is modelled as `3/10`. -/
def calculate_confidence_score (misinfo_score : ℚ) (api_results : List FactCheckResult) :
    ℤ × String :=
  let internal := misinfo_score * 50
  if api_results = [] then
    if misinfo_score > 7/10 then
      let span : ℚ := max (1/10000) (1 - 7/10)
      (min 80 (max 60 (pyRound (60 + ((misinfo_score - 7/10) / span) * 20))), "Fake")
    else
      let external : ℚ := 25
      let final_score := max 0 (min 100 (pyRound (internal + external)))
      (final_score, fuseVerdict final_score)
  else
    if has_false api_results && !has_true api_results then (95, "Fake")
    else if has_true api_results && !has_false api_results then (95, "Real")
    else if has_mixed api_results && !(has_false api_results || has_true api_results) then
      (60, "Unclear")
    else if has_false api_results && has_true api_results then (60, "Unclear")
    else
      let total := api_results.length
      let false_count := (api_results.filter (fun r => lowerStr r.verdict == "false")).length
      let external := ((false_count : ℚ) / (total : ℚ)) * 50
      let final_score := max 0 (min 100 (pyRound (internal + external)))
      (final_score, fuseVerdict final_score)

/-! ## Helper lemmas -/

theorem pyRound_intCast (n : ℤ) : pyRound (n : ℚ) = n := by
  unfold pyRound
  rw [Int.floor_intCast]
  norm_num

theorem score_nonneg (md : MisinformationDetector) (text : String) :
    0 ≤ md.score text := by
  unfold MisinformationDetector.score
  split
  · exact le_refl 0
  · exact le_max_left 0 _

theorem score_le_one (md : MisinformationDetector) (text : String) :
    md.score text ≤ 1 := by
  unfold MisinformationDetector.score
  split
  · exact zero_le_one
  · exact max_le zero_le_one (min_le_left 1 _)

theorem sens_nonneg (text : String) : 0 ≤ detect_sensationalism text := by
  unfold detect_sensationalism
  split
  · exact le_refl 0
  · exact le_min zero_le_one (div_nonneg (Nat.cast_nonneg _) (Nat.cast_nonneg _))

theorem sens_le_one (text : String) : detect_sensationalism text ≤ 1 := by
  unfold detect_sensationalism
  split
  · exact zero_le_one
  · exact min_le_left 1 _

/-! ## Claim theorems -/

/-- C5: for every input string, `MisinformationDetector.score` and
`detect_sensationalism` each return a value in [0, 1], and both return
exactly 0 on the empty string. -/
theorem c5_scores_bounded :
    (∀ (md : MisinformationDetector) (text : String),
        0 ≤ md.score text ∧ md.score text ≤ 1)
    ∧ (∀ text : String,
        0 ≤ detect_sensationalism text ∧ detect_sensationalism text ≤ 1)
    ∧ default_detector.score "" = 0 ∧ detect_sensationalism "" = 0 := by
  refine ⟨fun md t => ⟨score_nonneg md t, score_le_one md t⟩,
          fun t => ⟨sens_nonneg t, sens_le_one t⟩, ?_, ?_⟩
  · unfold MisinformationDetector.score
    rw [if_pos rfl]
  · unfold detect_sensationalism
    rw [if_pos rfl]

/-- C9: on the empty-string input end-to-end, `clean_text` returns `""`,
`analyze_text` returns scores (0, 0) with preliminary verdict "Real",
`query_google_fact_check` returns the empty list, and
`calculate_confidence_score 0 []` takes the no-external-results,
not-greater-than-0.70 branch, returning confidence 25 and verdict "Real". -/
theorem c9_empty_end_to_end :
    clean_text "" = ""
    ∧ analyze_text "" = (0, 0, "Real")
    ∧ query_google_fact_check "" = []
    ∧ calculate_confidence_score 0 [] = (25, "Real") := by
  refine ⟨rfl, ?_, rfl, ?_⟩
  · have hm : default_detector.score "" = 0 := by
      unfold MisinformationDetector.score; rw [if_pos rfl]
    have hs : detect_sensationalism "" = 0 := by
      unfold detect_sensationalism; rw [if_pos rfl]
    have hc : hasCrisisKeyword "" = false := by decide
    have hreal : boosted_preliminary 0 0 = "Real" := by
      unfold boosted_preliminary
      rw [if_neg (by norm_num), if_pos (by norm_num)]
    simp only [analyze_text, hm, hs, hc, if_false, Bool.false_eq_true]
    rw [hreal]
  · simp only [calculate_confidence_score]
    rw [if_pos trivial, if_neg (by norm_num)]
    have h25 : (0 : ℚ) * 50 + 25 = ((25 : ℤ) : ℚ) := by norm_num
    rw [h25, pyRound_intCast]
    norm_num [fuseVerdict]

/-- C1 counterexample: for misinfoScore 1/2 and results [False, Mixed] (no
True), `calculate_confidence_score` returns the (95, Fake) False-priority
result, while the fallback weighted formula the claim prescribes gives
round(1/2·50 + (1/2)·50) = 50, i.e. (50, Unclear) — so the fallback branch
is not selected. -/
theorem c1_fallback_counterexample :
    calculate_confidence_score (1/2) [fc_false_generic, fc_vaccine_mixed] = (95, "Fake")
    ∧ pyRound ((1/2 : ℚ) * 50 + (1/2 : ℚ) * 50) = 50
    ∧ (((95 : ℤ), ("Fake" : String)) == ((50 : ℤ), ("Unclear" : String))) = false := by
  refine ⟨by decide, ?_, by decide⟩
  have h : ((1 : ℚ)/2 * 50 + (1 : ℚ)/2 * 50) = ((50 : ℤ) : ℚ) := by norm_num
  rw [h, pyRound_intCast]

/-- C1 (amended): for every misinfoScore and every fact-check result list
containing at least one result with verdict "False" and none with verdict
"True" (in particular the False+Mixed lists produced by a claim containing
both "fake" and "vaccine"), `calculate_confidence_score` selects the
(95, Fake) False-priority branch — not the fallback weighted branch and not
the (60, Unclear) contradiction branch. -/
theorem c1_false_priority_branch (misinfo_score : ℚ) (api_results : List FactCheckResult)
    (hf : has_false api_results = true) (ht : has_true api_results = false) :
    calculate_confidence_score misinfo_score api_results = (95, "Fake") := by
  have hne : api_results ≠ [] := by
    intro h
    rw [h] at hf
    exact absurd hf (by decide)
  simp only [calculate_confidence_score]
  rw [if_neg hne]
  rw [hf, ht]
  simp

theorem c1_false_priority_branch_witness :
    calculate_confidence_score (1/2) [fc_false_generic, fc_vaccine_mixed] = (95, "Fake") :=
  c1_false_priority_branch (1/2) [fc_false_generic, fc_vaccine_mixed] (by decide) (by decide)

/-- C2: the guard + restore round trip of `preprocessing_and_translation`
(with the translation step the identity) does NOT reproduce the input on a
text with two occurrences of the same critical phrase: for
"urgent urgent" it yields "urgentTK9_1__ent", because the second match
is spliced at offsets computed before the first splice lengthened the
text, corrupting the placeholder and leaving it unrestorable. -/
theorem c2_guard_restore_not_roundtrip :
    guard_unguard "urgent urgent" = "urgentTK9_1__ent"
    ∧ (guard_unguard "urgent urgent" == "urgent urgent") = false := by
  exact ⟨by decide, by decide⟩

/-- C7: `analyze_text`'s preliminary verdict is the boosted 0.8 / 0.2
policy — "Fake" iff a boosted score exceeds 4/5, "Real" iff both are below
1/5, "Unclear" otherwise — and it is distinct from the plain
`generate_preliminary_prediction` policy ("Fake" iff misinfo > 3/5 and
sensationalism > 3/10, "Real" iff both below 3/10): at (7/10, 1/2) the
plain policy says "Fake" and the boosted policy does not. -/
theorem c7_verdict_policies :
    (∀ t : String,
        (analyze_text t).2.2 = boosted_preliminary (analyze_text t).1 (analyze_text t).2.1)
    ∧ (∀ m s : ℚ,
        (boosted_preliminary m s = "Fake" ↔ (4/5 < m ∨ 4/5 < s))
        ∧ (boosted_preliminary m s = "Real" ↔ (m < 1/5 ∧ s < 1/5))
        ∧ (boosted_preliminary m s = "Unclear" ↔ (¬(4/5 < m ∨ 4/5 < s) ∧ ¬(m < 1/5 ∧ s < 1/5)))
        ∧ (generate_preliminary_prediction m s = "Fake" ↔ (3/5 < m ∧ 3/10 < s))
        ∧ (generate_preliminary_prediction m s = "Real" ↔ (m < 3/10 ∧ s < 3/10)))
    ∧ (generate_preliminary_prediction (7/10) (1/2)
        == boosted_preliminary (7/10) (1/2)) = false := by
  refine ⟨fun t => rfl, fun m s => ?_, ?_⟩
  · unfold boosted_preliminary generate_preliminary_prediction
    refine ⟨?_, ?_, ?_, ?_, ?_⟩
    · split
      · rename_i h
        exact iff_of_true rfl h
      · rename_i h
        split
        · exact iff_of_false (by decide) h
        · exact iff_of_false (by decide) h
    · split
      · rename_i h
        refine iff_of_false (by decide) ?_
        rintro ⟨hm, hs⟩
        rcases h with h | h <;> linarith
      · split
        · rename_i h
          exact iff_of_true rfl h
        · rename_i _ h
          exact iff_of_false (by decide) h
    · split
      · rename_i h
        exact iff_of_false (by decide) (fun hands => hands.1 h)
      · rename_i h
        split
        · rename_i h2
          exact iff_of_false (by decide) (fun hands => hands.2 h2)
        · rename_i h2
          exact iff_of_true rfl ⟨h, h2⟩
    · split
      · rename_i h
        exact iff_of_true rfl h
      · rename_i h
        split
        · exact iff_of_false (by decide) h
        · exact iff_of_false (by decide) h
    · split
      · rename_i h
        refine iff_of_false (by decide) ?_
        rintro ⟨hm, hs⟩
        linarith [h.1]
      · split
        · rename_i h
          exact iff_of_true rfl h
        · rename_i _ h
          exact iff_of_false (by decide) h
  · have h1 : generate_preliminary_prediction (7/10) (1/2) = "Fake" := by
      unfold generate_preliminary_prediction
      rw [if_pos (by norm_num)]
    have h2 : boosted_preliminary (7/10) (1/2) = "Unclear" := by
      unfold boosted_preliminary
      rw [if_neg (by norm_num), if_neg (by norm_num)]
    rw [h1, h2]
    decide

theorem fuseVerdict_cases (x : ℤ) :
    fuseVerdict x = "Fake" ∨ fuseVerdict x = "Real" ∨ fuseVerdict x = "Unclear" := by
  unfold fuseVerdict
  split
  · exact Or.inl rfl
  · split
    · exact Or.inr (Or.inl rfl)
    · exact Or.inr (Or.inr rfl)

/-- C8: `calculate_confidence_score` is deterministic and total: equal
inputs give equal outputs, the confidence is an integer in [0, 100], and
the verdict is one of "Fake", "Real", "Unclear". -/
theorem c8_fuser_deterministic_total (misinfo_score : ℚ) (api_results : List FactCheckResult)
    (h0 : 0 ≤ misinfo_score) (h1 : misinfo_score ≤ 1) :
    (∀ (m2 : ℚ) (rs2 : List FactCheckResult), misinfo_score = m2 → api_results = rs2 →
        calculate_confidence_score misinfo_score api_results
          = calculate_confidence_score m2 rs2)
    ∧ 0 ≤ (calculate_confidence_score misinfo_score api_results).1
    ∧ (calculate_confidence_score misinfo_score api_results).1 ≤ 100
    ∧ ((calculate_confidence_score misinfo_score api_results).2 = "Fake"
       ∨ (calculate_confidence_score misinfo_score api_results).2 = "Real"
       ∨ (calculate_confidence_score misinfo_score api_results).2 = "Unclear") := by
  refine ⟨fun m2 rs2 hm hrs => by rw [hm, hrs], ?_⟩
  simp only [calculate_confidence_score]
  split
  · split
    · refine ⟨?_, ?_, Or.inl rfl⟩
      · exact le_min (by norm_num) (le_trans (by norm_num) (le_max_left 60 _))
      · exact le_trans (min_le_left 80 _) (by norm_num)
    · exact ⟨le_max_left 0 _, max_le (by norm_num) (min_le_left 100 _),
        fuseVerdict_cases _⟩
  · split
    · exact ⟨by norm_num, by norm_num, Or.inl rfl⟩
    · split
      · exact ⟨by norm_num, by norm_num, Or.inr (Or.inl rfl)⟩
      · split
        · exact ⟨by norm_num, by norm_num, Or.inr (Or.inr rfl)⟩
        · split
          · exact ⟨by norm_num, by norm_num, Or.inr (Or.inr rfl)⟩
          · exact ⟨le_max_left 0 _, max_le (by norm_num) (min_le_left 100 _),
              fuseVerdict_cases _⟩

theorem c8_fuser_deterministic_total_witness :
    0 ≤ (calculate_confidence_score (1/2) []).1
    ∧ (calculate_confidence_score (1/2) []).1 ≤ 100 :=
  ⟨(c8_fuser_deterministic_total (1/2) [] (by norm_num) (by norm_num)).2.1,
   (c8_fuser_deterministic_total (1/2) [] (by norm_num) (by norm_num)).2.2.1⟩

theorem ite_singleton_sublist {α : Type} (c : Prop) [Decidable c] (r : α) :
    (if c then [r] else []).Sublist [r] := by
  split
  · exact List.Sublist.refl _
  · exact List.nil_sublist _

theorem query_sublist (t : String) :
    (query_google_fact_check t).Sublist
      [fc_false_generic, fc_who_health, fc_pib_gov, fc_vaccine_mixed] := by
  simp only [query_google_fact_check]
  split
  · exact List.nil_sublist _
  · have htgt : [fc_false_generic, fc_who_health, fc_pib_gov, fc_vaccine_mixed]
        = [fc_false_generic] ++ [fc_who_health] ++ [fc_pib_gov] ++ [fc_vaccine_mixed] := rfl
    rw [htgt]
    exact List.Sublist.append
      (List.Sublist.append
        (List.Sublist.append (ite_singleton_sublist _ _) (ite_singleton_sublist _ _))
        (ite_singleton_sublist _ _))
      (ite_singleton_sublist _ _)

theorem query_mem (t : String) {r : FactCheckResult}
    (hr : r ∈ query_google_fact_check t) :
    r = fc_false_generic ∨ r = fc_who_health ∨ r = fc_pib_gov ∨ r = fc_vaccine_mixed := by
  have := (query_sublist t).subset hr
  simpa using this

theorem query_has_true_false (t : String) : has_true (query_google_fact_check t) = false := by
  cases h : has_true (query_google_fact_check t)
  · rfl
  · exfalso
    unfold has_true verdictsLower at h
    rcases List.any_eq_true.mp h with ⟨v, hv, hp⟩
    rcases List.mem_map.mp hv with ⟨r, hr, rfl⟩
    rcases query_mem t hr with rfl | rfl | rfl | rfl <;> exact absurd hp (by decide)

theorem fuser_no_95_real {rs : List FactCheckResult} (h : has_true rs = false) (m : ℚ) :
    calculate_confidence_score m rs ≠ (95, "Real") := by
  simp only [calculate_confidence_score]
  split
  · split
    · intro hc
      have h2 : ("Fake" : String) = "Real" := congrArg Prod.snd hc
      exact absurd h2 (by decide)
    · intro hc
      have h1 := congrArg Prod.fst hc
      have h2 := congrArg Prod.snd hc
      simp only at h1 h2
      rw [h1] at h2
      exact absurd h2 (by decide)
  · split
    · intro hc
      have h2 : ("Fake" : String) = "Real" := congrArg Prod.snd hc
      exact absurd h2 (by decide)
    · split
      · rename_i hcond
        rw [h] at hcond
        simp at hcond
      · split
        · intro hc
          have h2 : ("Unclear" : String) = "Real" := congrArg Prod.snd hc
          exact absurd h2 (by decide)
        · split
          · rename_i hcond
            rw [h, Bool.and_false] at hcond
            simp at hcond
          · intro hc
            have h1 := congrArg Prod.fst hc
            have h2 := congrArg Prod.snd hc
            simp only at h1 h2
            rw [h1] at h2
            exact absurd h2 (by decide)

/-- C10: every result the simulator `query_google_fact_check` returns has
verdict "False" or "Mixed" — never "True" — the list has at most 4
elements, appended in the fixed rule-evaluation order (it is a sublist of
the canonical 4-result list), and consequently `calculate_confidence_score`
can never take the (95, Real) True-only branch nor the True-and-False
contradiction branch on a simulator-produced list. -/
theorem c10_simulator_verdicts (t : String) :
    (query_google_fact_check t).Sublist
      [fc_false_generic, fc_who_health, fc_pib_gov, fc_vaccine_mixed]
    ∧ (query_google_fact_check t).all
        (fun r => r.verdict == "False" || r.verdict == "Mixed") = true
    ∧ (query_google_fact_check t).length ≤ 4
    ∧ has_true (query_google_fact_check t) = false
    ∧ (has_false (query_google_fact_check t) && has_true (query_google_fact_check t)) = false
    ∧ ∀ m : ℚ,
        (calculate_confidence_score m (query_google_fact_check t) == (95, "Real")) = false := by
  refine ⟨query_sublist t, ?_, ?_, query_has_true_false t, ?_, ?_⟩
  · refine List.all_eq_true.mpr (fun r hr => ?_)
    rcases query_mem t hr with rfl | rfl | rfl | rfl <;> decide
  · exact (query_sublist t).length_le
  · rw [query_has_true_false t, Bool.and_false]
  · intro m
    rw [beq_eq_false_iff_ne]
    exact fuser_no_95_real (query_has_true_false t) m

theorem analyze_text_fst (t : String) :
    (analyze_text t).1 =
      if hasCrisisKeyword t then
        (if default_detector.score t < 7/10
          then min 1 (default_detector.score t + 5/10) else default_detector.score t)
      else default_detector.score t := by
  simp only [analyze_text]
  split <;> rfl

theorem analyze_text_snd (t : String) :
    (analyze_text t).2.1 =
      if hasCrisisKeyword t then
        (if detect_sensationalism t < 2/10
          then min 1 (detect_sensationalism t + 2/10) else detect_sensationalism t)
      else detect_sensationalism t := by
  simp only [analyze_text]
  split <;> rfl

/-- C6: `analyze_text` never lowers either raw score; when a crisis keyword
is present the misinformation score becomes min(1, score + 0.50) exactly
when it was below 0.70 (and is unchanged otherwise), the sensationalism
score becomes min(1, score + 0.20) exactly when it was below 0.20 (and is
unchanged otherwise); with no crisis keyword both scores are unchanged. -/
theorem c6_booster_monotone (t : String) :
    default_detector.score t ≤ (analyze_text t).1
    ∧ detect_sensationalism t ≤ (analyze_text t).2.1
    ∧ (hasCrisisKeyword t = true →
        (default_detector.score t < 7/10 →
            (analyze_text t).1 = min 1 (default_detector.score t + 5/10))
        ∧ (7/10 ≤ default_detector.score t → (analyze_text t).1 = default_detector.score t)
        ∧ (detect_sensationalism t < 2/10 →
            (analyze_text t).2.1 = min 1 (detect_sensationalism t + 2/10))
        ∧ (2/10 ≤ detect_sensationalism t → (analyze_text t).2.1 = detect_sensationalism t))
    ∧ (hasCrisisKeyword t = false →
        (analyze_text t).1 = default_detector.score t
        ∧ (analyze_text t).2.1 = detect_sensationalism t) := by
  have hf := analyze_text_fst t
  have hs := analyze_text_snd t
  by_cases hc : hasCrisisKeyword t = true
  · rw [if_pos hc] at hf
    rw [if_pos hc] at hs
    rw [hf, hs]
    refine ⟨?_, ?_, fun _ => ⟨?_, ?_, ?_, ?_⟩, fun hfalse => ?_⟩
    · split
      · rename_i h
        exact le_min (score_le_one _ _) (by linarith)
      · exact le_refl _
    · split
      · rename_i h
        exact le_min (sens_le_one _) (by linarith)
      · exact le_refl _
    · intro h
      rw [if_pos h]
    · intro h
      rw [if_neg (not_lt.mpr h)]
    · intro h
      rw [if_pos h]
    · intro h
      rw [if_neg (not_lt.mpr h)]
    · rw [hc] at hfalse
      cases hfalse
  · rw [if_neg hc] at hf
    rw [if_neg hc] at hs
    rw [hf, hs]
    exact ⟨le_refl _, le_refl _, fun h => absurd h hc, fun _ => ⟨rfl, rfl⟩⟩

theorem score_lockdown_eval : default_detector.score "lockdown" = 0 := by
  unfold MisinformationDetector.score
  rw [if_neg (by decide)]
  rw [show misinfoCount default_detector.suspicious_terms (lowerStr "lockdown") = 0 from
        by decide,
      show tokenCount "lockdown" = 1 from by decide]
  have hb : misinfoBoost (lowerStr "lockdown") = 0 := by
    unfold misinfoBoost
    rw [if_neg (by decide), if_neg (by decide), if_neg (by decide)]
    norm_num
  rw [hb]
  norm_num

theorem c6_booster_monotone_witness :
    (analyze_text "lockdown").1 = min 1 (default_detector.score "lockdown" + 5/10) :=
  ((c6_booster_monotone "lockdown").2.2.1 (by decide)).1
    (by rw [score_lockdown_eval]; norm_num)

/-- C4: `process_language` is total — for every collaborator environment
and every input string (including the empty string) it returns a
(text, languageCode) pair — and whenever detection fails or the
translation collaborator is unavailable or raises, the returned text is
the original input unchanged and the returned language code is the code
determined so far ("unknown" when no detection succeeded); in every case
the returned text is either the original or a successful translation. -/
theorem c4_process_language_total (env : Env) (text : String) :
    (process_language env text).2 = detectedLangOf env text
    ∧ (env.translate = none → (process_language env text).1 = text)
    ∧ (¬(text ≠ "" ∧ hasDevanagari text = true) → env.detect text = none →
        process_language env text = (text, "unknown"))
    ∧ (∀ f, env.translate = some f →
        f text (detectedLangOf env text) "en" = none →
        (process_language env text).1 = text)
    ∧ ((process_language env text).1 = text
       ∨ ∃ f out, env.translate = some f
            ∧ f text (detectedLangOf env text) "en" = some out
            ∧ (process_language env text).1 = out) := by
  refine ⟨rfl, ?_, ?_, ?_, ?_⟩
  · intro hnone
    simp only [process_language]
    split
    · rw [hnone]
    · rfl
  · intro hdev hdet
    have hlang : detectedLangOf env text = "unknown" := by
      unfold detectedLangOf
      rw [if_neg hdev, hdet]
    simp only [process_language]
    rw [hlang]
    norm_num
  · intro f hf hraise
    simp only [process_language]
    split
    · simp only [hf]
      rw [hraise]
    · rfl
  · simp only [process_language]
    split
    · cases htr : env.translate with
      | none => exact Or.inl rfl
      | some f =>
        simp only []
        cases hout : f text (detectedLangOf env text) "en" with
        | none => exact Or.inl rfl
        | some out => exact Or.inr ⟨f, out, rfl, hout, rfl⟩
    · exact Or.inl rfl

theorem c4_process_language_total_witness :
    process_language ⟨fun _ => none, none⟩ "hello" = ("hello", "unknown") :=
  (c4_process_language_total ⟨fun _ => none, none⟩ "hello").2.2.1 (by decide) rfl

theorem char_toNat_ofNat {n : Nat} (h : n.isValidChar) : (Char.ofNat n).toNat = n := by
  unfold Char.ofNat
  rw [dif_pos h]
  rfl

theorem lowerChar_idem (c : Char) : lowerChar (lowerChar c) = lowerChar c := by
  simp only [lowerChar, Char.toLower]
  by_cases h : c.toNat ≥ 65 ∧ c.toNat ≤ 90
  · rw [if_pos h]
    have hv : (c.toNat + 32).isValidChar := Or.inl (by omega)
    have ht : (Char.ofNat (c.toNat + 32)).toNat = c.toNat + 32 := char_toNat_ofNat hv
    have hnot : ¬((Char.ofNat (c.toNat + 32)).toNat ≥ 65
        ∧ (Char.ofNat (c.toNat + 32)).toNat ≤ 90) := by
      rw [ht]
      omega
    rw [if_neg hnot]
  · rw [if_neg h, if_neg h]

theorem mem_of_startsWithL : ∀ {p l : List Char}, startsWithL p l = true → ∀ c ∈ p, c ∈ l := by
  intro p
  induction p with
  | nil =>
    intro l _ c hc
    cases hc
  | cons a as ih =>
    intro l h c hc
    cases l with
    | nil => cases h
    | cons b bs =>
      simp only [startsWithL, Bool.and_eq_true, beq_iff_eq] at h
      rcases List.mem_cons.mp hc with rfl | hc2
      · exact h.1 ▸ List.mem_cons_self _ _
      · exact List.mem_cons_of_mem _ (ih h.2 c hc2)

theorem urlStartLen_eq_none {l : List Char} (h : ∀ c ∈ l, c ≠ ':' ∧ c ≠ '.') :
    urlStartLen l = none := by
  have h1 : ¬(startsWithL "https://".data l = true) := by
    intro hs
    exact absurd rfl (h ':' (mem_of_startsWithL hs ':' (by decide))).1
  have h2 : ¬(startsWithL "http://".data l = true) := by
    intro hs
    exact absurd rfl (h ':' (mem_of_startsWithL hs ':' (by decide))).1
  have h3 : ¬(startsWithL "www.".data l = true) := by
    intro hs
    exact absurd rfl (h '.' (mem_of_startsWithL hs '.' (by decide))).2
  unfold urlStartLen
  rw [if_neg h1, if_neg h2, if_neg h3]

theorem removeURLsAux_eq_self : ∀ (fuel : Nat) (l : List Char),
    (∀ c ∈ l, c ≠ ':' ∧ c ≠ '.') → removeURLsAux fuel l = l := by
  intro fuel
  induction fuel with
  | zero =>
    intro l _
    rfl
  | succ f ih =>
    intro l h
    cases l with
    | nil => rfl
    | cons a as =>
      simp only [removeURLsAux]
      rw [urlStartLen_eq_none h]
      rw [ih as (fun c hc => h c (List.mem_cons_of_mem _ hc))]

theorem mem_of_mem_removeURLsAux : ∀ (fuel : Nat) (l : List Char) (c : Char),
    c ∈ removeURLsAux fuel l → c ∈ l := by
  intro fuel
  induction fuel with
  | zero =>
    intro l c h
    exact h
  | succ f ih =>
    intro l c h
    cases l with
    | nil => cases h
    | cons a as =>
      simp only [removeURLsAux] at h
      cases hm : urlStartLen (a :: as) with
      | some n =>
        rw [hm] at h
        exact List.mem_of_mem_drop (ih _ _ h)
      | none =>
        rw [hm] at h
        rcases List.mem_cons.mp h with rfl | h2
        · exact List.mem_cons_self _ _
        · exact List.mem_cons_of_mem _ (ih as c h2)

theorem splitWsAux_good : ∀ (l cur : List Char),
    (∀ c ∈ cur, c.isWhitespace = false) →
    ∀ w ∈ splitWsAux l cur, w ≠ [] ∧ ∀ c ∈ w, c.isWhitespace = false := by
  intro l
  induction l with
  | nil =>
    intro cur hcur w hw
    simp only [splitWsAux] at hw
    split at hw
    · cases hw
    · rename_i hne
      rcases List.mem_singleton.mp hw with rfl
      refine ⟨?_, fun c hc => hcur c (List.mem_reverse.mp hc)⟩
      intro hrev
      rcases List.reverse_eq_nil_iff.mp hrev with rfl
      exact hne rfl
  | cons a as ih =>
    intro cur hcur w hw
    simp only [splitWsAux] at hw
    split at hw
    · split at hw
      · exact ih [] (by simp) w hw
      · rename_i hne
        rcases List.mem_cons.mp hw with rfl | hw2
        · refine ⟨?_, fun c hc => hcur c (List.mem_reverse.mp hc)⟩
          intro hrev
          rcases List.reverse_eq_nil_iff.mp hrev with rfl
          exact hne rfl
        · exact ih [] (by simp) w hw2
    · rename_i hws
      refine ih (a :: cur) ?_ w hw
      intro c hc
      rcases List.mem_cons.mp hc with rfl | h2
      · exact Bool.eq_false_iff.mpr hws
      · exact hcur c h2

theorem splitWsAux_no_ws : ∀ (w cur : List Char),
    (∀ c ∈ w, c.isWhitespace = false) → cur.reverse ++ w ≠ [] →
    splitWsAux w cur = [cur.reverse ++ w] := by
  intro w
  induction w with
  | nil =>
    intro cur _ hne
    cases cur with
    | nil => exact absurd rfl hne
    | cons d ds =>
      simp only [splitWsAux]
      rw [if_neg (by simp)]
      simp
  | cons a as ih =>
    intro cur hw hne
    simp only [splitWsAux]
    rw [if_neg ?_]
    · rw [ih (a :: cur) (fun c hc => hw c (List.mem_cons_of_mem _ hc)) (by simp)]
      simp [List.reverse_cons, List.append_assoc]
    · rw [hw a (List.mem_cons_self _ _)]
      simp

theorem splitWsAux_word_sp : ∀ (w rest cur : List Char),
    (∀ c ∈ w, c.isWhitespace = false) → cur.reverse ++ w ≠ [] →
    splitWsAux (w ++ ' ' :: rest) cur = (cur.reverse ++ w) :: splitWsAux rest [] := by
  intro w
  induction w with
  | nil =>
    intro rest cur _ hne
    cases cur with
    | nil => exact absurd rfl hne
    | cons d ds =>
      simp only [List.nil_append, splitWsAux]
      rw [if_pos (by decide), if_neg (by simp)]
      simp
  | cons a as ih =>
    intro rest cur hw hne
    simp only [List.cons_append, splitWsAux]
    rw [if_neg ?_]
    · show splitWsAux (as ++ ' ' :: rest) (a :: cur) = (cur.reverse ++ a :: as) :: splitWsAux rest []
      rw [ih rest (a :: cur) (fun c hc => hw c (List.mem_cons_of_mem _ hc)) (by simp)]
      simp [List.reverse_cons, List.append_assoc]
    · rw [hw a (List.mem_cons_self _ _)]
      simp

theorem splitWs_joinSp : ∀ ws : List (List Char),
    (∀ w ∈ ws, w ≠ [] ∧ ∀ c ∈ w, c.isWhitespace = false) →
    splitWs (joinSp ws) = ws := by
  intro ws
  induction ws with
  | nil =>
    intro _
    rfl
  | cons w rest ih =>
    intro h
    cases rest with
    | nil =>
      show splitWsAux w [] = [w]
      have hgood := h w (List.mem_cons_self _ _)
      have := splitWsAux_no_ws w [] hgood.2 (by simpa using hgood.1)
      simpa using this
    | cons x xs =>
      show splitWsAux (w ++ ' ' :: joinSp (x :: xs)) [] = w :: x :: xs
      have hgood := h w (List.mem_cons_self _ _)
      rw [splitWsAux_word_sp w _ [] hgood.2 (by simpa using hgood.1)]
      simp only [List.reverse_nil, List.nil_append]
      rw [show splitWsAux (joinSp (x :: xs)) [] = splitWs (joinSp (x :: xs)) from rfl]
      rw [ih (fun w' hw' => h w' (List.mem_cons_of_mem _ hw'))]

theorem collapseWs_idem (l : List Char) : collapseWs (collapseWs l) = collapseWs l := by
  unfold collapseWs
  rw [splitWs_joinSp (splitWs l) (fun w hw => splitWsAux_good l [] (by simp) w hw)]

theorem mem_joinSp : ∀ (ws : List (List Char)) (c : Char), c ∈ joinSp ws →
    c = ' ' ∨ ∃ w ∈ ws, c ∈ w := by
  intro ws
  induction ws with
  | nil =>
    intro c hc
    cases hc
  | cons w rest ih =>
    intro c hc
    cases rest with
    | nil => exact Or.inr ⟨w, List.mem_cons_self _ _, hc⟩
    | cons x xs =>
      have hc2 : c ∈ w ++ ' ' :: joinSp (x :: xs) := hc
      rcases List.mem_append.mp hc2 with h | h
      · exact Or.inr ⟨w, List.mem_cons_self _ _, h⟩
      · rcases List.mem_cons.mp h with rfl | h2
        · exact Or.inl rfl
        · rcases ih c h2 with h3 | ⟨w', hw', hcw⟩
          · exact Or.inl h3
          · exact Or.inr ⟨w', List.mem_cons_of_mem _ hw', hcw⟩

theorem mem_splitWsAux : ∀ (l cur w : List Char) (c : Char),
    w ∈ splitWsAux l cur → c ∈ w → c ∈ l ∨ c ∈ cur := by
  intro l
  induction l with
  | nil =>
    intro cur w c hw hc
    simp only [splitWsAux] at hw
    split at hw
    · cases hw
    · rcases List.mem_singleton.mp hw with rfl
      exact Or.inr (List.mem_reverse.mp hc)
  | cons a as ih =>
    intro cur w c hw hc
    simp only [splitWsAux] at hw
    split at hw
    · split at hw
      · rcases ih [] w c hw hc with h | h
        · exact Or.inl (List.mem_cons_of_mem _ h)
        · cases h
      · rcases List.mem_cons.mp hw with rfl | hw2
        · exact Or.inr (List.mem_reverse.mp hc)
        · rcases ih [] w c hw2 hc with h | h
          · exact Or.inl (List.mem_cons_of_mem _ h)
          · cases h
    · rcases ih (a :: cur) w c hw hc with h | h
      · exact Or.inl (List.mem_cons_of_mem _ h)
      · rcases List.mem_cons.mp h with rfl | h2
        · exact Or.inl (List.mem_cons_self _ _)
        · exact Or.inr h2

theorem mem_collapseWs {c : Char} {l : List Char} (hc : c ∈ collapseWs l) :
    c = ' ' ∨ (c ∈ l ∧ c.isWhitespace = false) := by
  unfold collapseWs at hc
  rcases mem_joinSp _ c hc with h | ⟨w, hw, hcw⟩
  · exact Or.inl h
  · have hgood := splitWsAux_good l [] (by simp) w hw
    rcases mem_splitWsAux l [] w c hw hcw with h | h
    · exact Or.inr ⟨h, hgood.2 c hcw⟩
    · cases h

theorem map_id_of_mem {f : Char → Char} : ∀ {l : List Char},
    (∀ c ∈ l, f c = c) → l.map f = l := by
  intro l
  induction l with
  | nil =>
    intro _
    rfl
  | cons a as ih =>
    intro h
    simp only [List.map_cons]
    rw [h a (List.mem_cons_self _ _), ih (fun c hc => h c (List.mem_cons_of_mem _ hc))]

theorem cleanList_mem {l : List Char} :
    ∀ c ∈ cleanList l,
      (c = ' ' ∨ (isWordChar c = true ∧ c ≠ '_' ∧ c.isWhitespace = false))
      ∧ lowerChar c = c := by
  intro c hc
  unfold cleanList at hc
  rcases mem_collapseWs hc with rfl | ⟨hc2, hws⟩
  · exact ⟨Or.inl rfl, by decide⟩
  · rcases List.mem_map.mp hc2 with ⟨x, hx, hxc⟩
    by_cases hx_ : x = '_'
    · rw [if_pos hx_] at hxc
      rw [← hxc] at hws
      exact absurd hws (by decide)
    · rw [if_neg hx_] at hxc
      subst hxc
      have hkeep := List.of_mem_filter hx
      have hmem := List.mem_of_mem_filter hx
      have hlow : lowerChar x = x := by
        rcases List.mem_map.mp (mem_of_mem_removeURLsAux _ _ _ hmem) with ⟨y, _, hy⟩
        rw [← hy]
        exact lowerChar_idem y
      have hword : isWordChar x = true := by
        have hkeep2 : isWordChar x = true ∨ x.isWhitespace = true := by
          simpa using hkeep
        rcases hkeep2 with h | h
        · exact h
        · rw [hws] at h
          exact absurd h (by decide)
      exact ⟨Or.inr ⟨hword, hx_, hws⟩, hlow⟩

theorem cleanList_idem (l : List Char) : cleanList (cleanList l) = cleanList l := by
  have hmem := @cleanList_mem l
  have hcolon : ∀ c ∈ cleanList l, c ≠ ':' ∧ c ≠ '.' := by
    intro c hc
    rcases (hmem c hc).1 with rfl | ⟨hword, _, _⟩
    · exact ⟨by decide, by decide⟩
    · constructor
      · intro heq
        subst heq
        exact absurd hword (by decide)
      · intro heq
        subst heq
        exact absurd hword (by decide)
  nth_rewrite 1 [cleanList]
  rw [map_id_of_mem (fun c hc => (hmem c hc).2)]
  rw [show removeURLs (cleanList l) = cleanList l from
        removeURLsAux_eq_self (cleanList l).length (cleanList l) hcolon]
  rw [List.filter_eq_self.mpr ?hkeep]
  rw [map_id_of_mem ?hund]
  case hkeep =>
    intro c hc
    rcases (hmem c hc).1 with rfl | ⟨hword, _, _⟩
    · decide
    · rw [hword]
      rfl
  case hund =>
    intro c hc
    rcases (hmem c hc).1 with rfl | ⟨_, hne, _⟩
    · rw [if_neg (by decide)]
    · rw [if_neg hne]
  conv_lhs => rw [cleanList]
  exact collapseWs_idem _

/-- C3: `clean_text` is idempotent — cleaning already-cleaned text returns
it unchanged — and `clean_text` of empty input is the empty string. -/
theorem c3_clean_text_idempotent :
    (∀ t : String, clean_text (clean_text t) = clean_text t) ∧ clean_text "" = "" := by
  constructor
  · intro t
    by_cases h : t = ""
    · subst h
      rfl
    · have h1 : clean_text t = ⟨cleanList t.data⟩ := by
        unfold clean_text
        rw [if_neg h]
      rw [h1]
      by_cases h2 : (⟨cleanList t.data⟩ : String) = ""
      · rw [h2]
        rfl
      · unfold clean_text
        rw [if_neg h2]
        exact congrArg String.mk (cleanList_idem t.data)
  · rfl
